import Mathlib

/-!
Verification of the challenge_utils benchmarking harness.

The development shallowly embeds the harness of `src/benchmarks`
(`ScriptRunner.py`, `ResultsProcessor.py`) together with the day-level
accumulation loop of the legacy pipeline
(`src/Benchmarks/execute_challenge.py`).  Python dictionaries are modelled
as insertion-ordered association lists, machine floats as exact rationals
(with real-valued square roots for standard deviations), and the
subprocess machinery of `ScriptRunner.run_script` as a pure function of
the candidate file's metadata and an environment describing the observable
behaviour of the compile and run child processes (exit codes, durations,
peak memory).
-/

set_option autoImplicit false

namespace ChallengeUtils

/-! ## Python dictionaries as insertion-ordered association lists -/

/-- Model of a Python `dict` keyed by problem number: an association
list in insertion order.  Python dict semantics: lookup finds the entry
with the key, assignment replaces in place when present and appends
otherwise. -/
abbrev Dict (α : Type) := List (Nat × α)

/-- Lookup, i.e. `d[k]` / `k in d`. -/
def dictGet {α : Type} (d : Dict α) (k : Nat) : Option α :=
  (d.find? (fun e => e.1 == k)).map (·.2)

/-- Assignment `d[k] = v`: replace in place when the key is present,
append at the end otherwise (Python preserves insertion order). -/
def dictSet {α : Type} (d : Dict α) (k : Nat) (v : α) : Dict α :=
  if (d.find? (fun e => e.1 == k)).isSome then
    d.map (fun e => if e.1 == k then (k, v) else e)
  else
    d ++ [(k, v)]

/-- Key list of a dict, in insertion order. -/
def dictKeys {α : Type} (d : Dict α) : List Nat :=
  d.map (·.1)

/-! ## The Process Runner, `src/benchmarks/ScriptRunner.py` -/

/-- Result tuple returned by `ScriptRunner.run_script` on success:
`(extension, line_count, file_size_kB, elapsed_ms, peak_memory_MB)`. -/
structure RunResult where
  ext : String
  lines : Nat
  sizeKB : ℚ
  timeMs : ℚ
  peakMemory : ℚ
deriving DecidableEq, Repr

/-- Mutable state of a `ScriptRunner` instance (`__init__`):
`times_taken`, `file_info` and `peak_memory_usage`, all keyed by
problem number. -/
structure RunnerState where
  times_taken : Dict (List ℚ)
  file_info : Dict (String × Nat × ℚ)
  peak_memory_usage : Dict (List ℚ)
deriving DecidableEq, Repr

/-- Fresh runner state (`ScriptRunner.__init__`): three empty dicts. -/
def initialState : RunnerState :=
  { times_taken := [], file_info := [], peak_memory_usage := [] }

/-- Embedding of `ScriptRunner._record_result`: when the problem number
is new, initialise empty sample lists and store the file-info triple of
this (first) result; then append the elapsed time and the peak memory to
the problem's sample lists. -/
def record_result (s : RunnerState) (problem_number : Nat) (r : RunResult) :
    RunnerState :=
  let s' :=
    if (dictGet s.times_taken problem_number).isNone then
      { times_taken := dictSet s.times_taken problem_number [],
        peak_memory_usage := dictSet s.peak_memory_usage problem_number [],
        file_info := dictSet s.file_info problem_number
          (r.ext, r.lines, r.sizeKB) }
    else s
  { s' with
    times_taken := dictSet s'.times_taken problem_number
      ((dictGet s'.times_taken problem_number).getD [] ++ [r.timeMs]),
    peak_memory_usage := dictSet s'.peak_memory_usage problem_number
      ((dictGet s'.peak_memory_usage problem_number).getD [] ++ [r.peakMemory]) }

/-- Extensions skipped outright by `run_script`
(`extension in {'.txt', '.png', '.exe'}`). -/
def unsupported_exts : List String := [".txt", ".png", ".exe"]

/-- The skip marker: files whose name begins with this string are
skipped (`file_name.startswith("Alt")`). -/
def skip_marker : String := "Alt"

/-- Model of Python's `str.startswith`: does the second character
sequence begin with the first? -/
def starts_with : List Char → List Char → Bool
  | [], _ => true
  | _ :: _, [] => false
  | a :: pre', b :: s => a == b && starts_with pre' s

/-- Extension keys of the `language_config` dict built by
`Language_Support._initialize_language_config` in
`src/core/SupportedLangs.py`. -/
def language_config_keys : List String :=
  [".py", ".rb", ".jl", ".js", ".ts", ".pl", ".php", ".lua", ".r", ".sh",
   ".ps1", ".go", ".c", ".cpp", ".java", ".rs", ".scala", ".swift", ".kt",
   ".hs", ".ml", ".clj"]

/-- Extensions whose `language_config` entry carries a `compile` command
(`.c`, `.cpp`, `.java`, `.rs` in `SupportedLangs.py`). -/
def compiled_exts : List String := [".c", ".cpp", ".java", ".rs"]

/-- Metadata of a candidate solution file: its name, lower-cased suffix,
line count and size in kB (the latter two as read back by
`get_file_line_count` / `get_file_size`). -/
structure SourceFile where
  name : String
  ext : String
  lines : Nat
  sizeKB : ℚ
deriving DecidableEq, Repr

/-- Observable behaviour of the external child processes spawned for one
candidate: exit status and wall-clock duration (ms) of the compile
command, exit status and wall-clock duration (ms) of the run command
(from `Popen` until `communicate` returns), and the peak resident memory
(MB) reported by `monitor_memory_usage`. -/
structure ExecEnv where
  compileExit : Int
  compileMs : ℚ
  runExit : Int
  runMs : ℚ
  peakMemoryMB : ℚ
deriving DecidableEq, Repr

/-- Outcome of `ScriptRunner.run_script` for one candidate.  The Python
code returns `None` on every non-success path; the constructors record
which early return was taken (skip check, unknown extension, compile
failure, non-zero run exit). -/
inductive RunOutcome where
  | skipped
  | unsupportedFile
  | compileFailed
  | execFailed
  | success (r : RunResult)
deriving DecidableEq, Repr

/-- Elapsed time of a successful outcome, `none` otherwise. -/
def RunOutcome.elapsed? : RunOutcome → Option ℚ
  | .success r => some r.timeMs
  | _ => none

/-- Embedding of `ScriptRunner.run_script`.  Control flow of the source:
first the early skip test (excluded extension or name beginning with the
skip marker), then the `language_config` membership test; `start_time`
is taken *before* the compile step, so on success the reported elapsed
time is the compile duration (when a compile step exists) plus the run
duration. -/
def run_script (f : SourceFile) (env : ExecEnv) : RunOutcome :=
  if f.ext ∈ unsupported_exts ∨ starts_with skip_marker.data f.name.data then
    .skipped
  else if f.ext ∉ language_config_keys then
    .unsupportedFile
  else
    -- `start_time = time.time()` happens here, before compilation
    let hasCompile := f.ext ∈ compiled_exts
    if hasCompile ∧ env.compileExit ≠ 0 then
      .compileFailed
    else
      let compileElapsed : ℚ := if hasCompile then env.compileMs else 0
      if env.runExit ≠ 0 then
        .execFailed
      else
        .success
          { ext := f.ext, lines := f.lines, sizeKB := f.sizeKB,
            timeMs := compileElapsed + env.runMs,
            peakMemory := env.peakMemoryMB }

/-- One step of `ScriptRunner.process_directory`'s inner loop: record the
result when `run_script` produced one (`if result:`), otherwise leave the
runner state untouched. -/
def process_result (s : RunnerState) (problem_no : Nat) (o : RunOutcome) :
    RunnerState :=
  match o with
  | .success r => record_result s problem_no r
  | _ => s

/-- Record a whole sequence of successful results (the succession of
`_record_result` calls made across iterations and problems). -/
def record_all (s : RunnerState) : List (Nat × RunResult) → RunnerState
  | [] => s
  | (p, r) :: rest => record_all (record_result s p r) rest

/-! ## The legacy day-accumulation loop, `src/Benchmarks/execute_challenge.py` -/

/-- Result tuple of the legacy `run_script`
(`Benchmarks/script_runner.py`): elapsed time in seconds. -/
structure LegacyResult where
  ext : String
  line_count : Nat
  file_sizeKB : ℚ
  elapsed_sec : ℚ
  peak_memoryMB : ℚ
deriving DecidableEq, Repr

/-- Per-iteration, per-day accumulator of `execute_challenge_scripts`:
`day_time, day_lines, day_size, day_peak_memory = 0, 0, 0, 0`. -/
structure DayAccum where
  day_time : ℚ
  day_lines : Nat
  day_size : ℚ
  day_peak_memory : ℚ
deriving DecidableEq, Repr

/-- Embedding of the inner loop of `execute_challenge_scripts` over the
day's successful script results: `day_time += elapsed_time * 1000`,
`day_lines += line_count`, `day_size += file_size`,
`day_peak_memory = max(day_peak_memory, peak_memory)`. -/
def day_accum (results : List LegacyResult) : DayAccum :=
  results.foldl
    (fun a r =>
      { day_time := a.day_time + r.elapsed_sec * 1000,
        day_lines := a.day_lines + r.line_count,
        day_size := a.day_size + r.file_sizeKB,
        day_peak_memory := max a.day_peak_memory r.peak_memoryMB })
    { day_time := 0, day_lines := 0, day_size := 0, day_peak_memory := 0 }

/-! ## The Results Aggregator, `src/benchmarks/ResultsProcessor.py` -/

/-- Arithmetic mean of a list, the idealisation of `np.mean`.  (For the
empty list this yields `0 / 0 = 0`; the callers guard the empty case
themselves, mirroring `np.mean(times) if times else 0`.) -/
def listMean (l : List ℚ) : ℚ :=
  l.sum / l.length

/-- Population variance (`np.std` squared, numpy's default `ddof=0`):
mean of the squared deviations from the mean. -/
def popVar (l : List ℚ) : ℚ :=
  listMean (l.map (fun x => (x - listMean l) ^ 2))

/-- Idealisation of `np.std`: the square root of the population
variance. -/
noncomputable def npStd (l : List ℚ) : ℝ :=
  Real.sqrt (popVar l)

/-- Per-problem entry of the `stats` dict built by
`ResultsProcessor._calculate_stats`. -/
structure ProblemStats where
  avg_time : ℚ
  std_time : ℝ
  avg_mem : ℚ
  std_mem : ℝ

/-- Loop body of `_calculate_stats` for one problem: averages and
population standard deviations of the time and memory samples, each
guarded by the Python truthiness test (`np.mean(times) if times else 0`,
and likewise for `np.std` and for the memory list). -/
noncomputable def problem_stats (times mems : List ℚ) : ProblemStats :=
  { avg_time := if times = [] then 0 else listMean times,
    std_time := if times = [] then 0 else npStd times,
    avg_mem := if mems = [] then 0 else listMean mems,
    std_mem := if mems = [] then 0 else npStd mems }

/-- The `stats['total']` entry of `_calculate_stats`. -/
structure TotalStats where
  time : ℚ
  memory : ℚ
  time_std : ℝ
  memory_std : ℝ

/-- The per-problem loop of `_calculate_stats`: walk `times_taken` in
insertion order, pair each problem with its memory samples
(`peak_memory_usage.get(problem, [])`), build the per-problem stats and
accumulate `total_time` and `total_memory`. -/
noncomputable def stats_loop (pm : Dict (List ℚ)) :
    Dict (List ℚ) → Dict ProblemStats × ℚ × ℚ
  | [] => ([], 0, 0)
  | e :: rest =>
      let s := problem_stats e.2 ((dictGet pm e.1).getD [])
      let r := stats_loop pm rest
      ((e.1, s) :: r.1, s.avg_time + r.2.1, s.avg_mem + r.2.2)

/-- The per-problem stats map alone, as a plain `map` over
`times_taken`. -/
noncomputable def stats_entries (tt pm : Dict (List ℚ)) : Dict ProblemStats :=
  tt.map (fun e => (e.1, problem_stats e.2 ((dictGet pm e.1).getD [])))

/-- Embedding of `ResultsProcessor._calculate_stats`: the per-problem
stats dict plus the totals entry, whose `time_std` and `memory_std` sum
the per-problem standard deviations (`sum(s['std_time'] for s in
stats.values())`, evaluated before the totals entry is inserted). -/
noncomputable def calculate_stats (tt pm : Dict (List ℚ)) :
    Dict ProblemStats × TotalStats :=
  let r := stats_loop pm tt
  (r.1,
   { time := r.2.1, memory := r.2.2,
     time_std := (r.1.map (·.2.std_time)).sum,
     memory_std := (r.1.map (·.2.std_mem)).sum })

/-- One row of the generated summary: `label = some p` for the row of
problem `p`, `label = none` for the trailing `"Total"` row; the
remaining fields are the columns `Avg(ms)`, `STD(ms)`, `Time%`,
`Avg(MB)`, `STD(MB)`, `Mem%`, `Lang`, `Size(kB)`, `Lines`. -/
structure SummaryRow where
  label : Option Nat
  avg_time : ℚ
  std_time : ℝ
  time_pct : ℚ
  avg_mem : ℚ
  std_mem : ℝ
  mem_pct : ℚ
  lang : String
  sizeKB : ℚ
  lines : Nat

/-- Embedding of `ResultsProcessor.generate_table`: one row per problem
in ascending key order (`sorted(k for k in stats.keys() if k != 'total')`),
with percentage shares guarded by `if stats['total']['time'] > 0` (and
likewise for memory) and file info looked up with default
`("", 0, 0.0)`; a totals row is appended last, carrying the totals of
`_calculate_stats`, literal `100` percentages, and the summed sizes and
line counts of the listed rows. -/
noncomputable def generate_table (file_info : Dict (String × Nat × ℚ))
    (tt pm : Dict (List ℚ)) : List SummaryRow :=
  let stats := calculate_stats tt pm
  let total := stats.2
  let sortedKeys := (dictKeys tt).insertionSort (· ≤ ·)
  let rows := sortedKeys.map (fun p =>
    let s := (dictGet stats.1 p).getD ⟨0, 0, 0, 0⟩
    let time_pct : ℚ := if 0 < total.time then s.avg_time / total.time * 100 else 0
    let mem_pct : ℚ := if 0 < total.memory then s.avg_mem / total.memory * 100 else 0
    let fi := (dictGet file_info p).getD ("", 0, 0)
    { label := some p, avg_time := s.avg_time, std_time := s.std_time,
      time_pct := time_pct, avg_mem := s.avg_mem, std_mem := s.std_mem,
      mem_pct := mem_pct, lang := fi.1, sizeKB := fi.2.2, lines := fi.2.1 })
  let total_lines := (sortedKeys.map
    (fun p => ((dictGet file_info p).getD ("", 0, 0)).2.1)).sum
  let total_size := (sortedKeys.map
    (fun p => ((dictGet file_info p).getD ("", 0, 0)).2.2)).sum
  rows ++
    [{ label := none, avg_time := total.time, std_time := total.time_std,
       time_pct := 100, avg_mem := total.memory, std_mem := total.memory_std,
       mem_pct := 100, lang := "", sizeKB := total_size, lines := total_lines }]

/-- Invariant of the runner's record state: the three per-problem dicts
hold exactly the same keys (in the same insertion order), and every
problem's time-sample list and memory-sample list have equal length. -/
def StateInv (s : RunnerState) : Prop :=
  dictKeys s.times_taken = dictKeys s.file_info ∧
  dictKeys s.times_taken = dictKeys s.peak_memory_usage ∧
  ∀ p ts ms, dictGet s.times_taken p = some ts →
    dictGet s.peak_memory_usage p = some ms → ts.length = ms.length

/-! ## Dictionary lemmas -/

theorem dictGet_cons {α : Type} (k' : Nat) (v : α) (d : Dict α) (k : Nat) :
    dictGet ((k', v) :: d) k = if k' = k then some v else dictGet d k := by
  unfold dictGet
  by_cases h : k' = k
  · subst h
    rw [List.find?_cons_of_pos _ (by simp)]
    simp
  · rw [List.find?_cons_of_neg _ (by simp [h]), if_neg h]

theorem dictGet_isSome_iff {α : Type} (d : Dict α) (k : Nat) :
    (dictGet d k).isSome ↔ k ∈ dictKeys d := by
  induction d with
  | nil => simp [dictGet, dictKeys]
  | cons e rest ih =>
      obtain ⟨k', v⟩ := e
      rw [dictGet_cons]
      by_cases h : k' = k
      · subst h
        simp [dictKeys]
      · simpa [dictKeys, h, Ne.symm h] using ih

theorem dictGet_eq_none_iff {α : Type} (d : Dict α) (k : Nat) :
    dictGet d k = none ↔ k ∉ dictKeys d := by
  rw [← dictGet_isSome_iff, ← Option.not_isSome_iff_eq_none]

theorem find?_isSome_eq {α : Type} (d : Dict α) (k : Nat) :
    (d.find? (fun e => e.1 == k)).isSome = (dictGet d k).isSome := by
  simp [dictGet]

theorem dictKeys_dictSet_of_mem {α : Type} {d : Dict α} {k : Nat}
    (h : k ∈ dictKeys d) (v : α) : dictKeys (dictSet d k v) = dictKeys d := by
  have hc : (d.find? (fun e => e.1 == k)).isSome = true := by
    rw [find?_isSome_eq]
    exact (dictGet_isSome_iff d k).mpr h
  rw [dictSet, if_pos hc]
  unfold dictKeys
  rw [List.map_map]
  apply List.map_congr_left
  intro e _
  by_cases hek : e.1 = k
  · simp [hek]
  · simp [hek]

theorem dictKeys_dictSet_of_not_mem {α : Type} {d : Dict α} {k : Nat}
    (h : k ∉ dictKeys d) (v : α) :
    dictKeys (dictSet d k v) = dictKeys d ++ [k] := by
  have hc : (d.find? (fun e => e.1 == k)).isSome = false := by
    rw [find?_isSome_eq, Bool.eq_false_iff]
    intro hs
    exact h ((dictGet_isSome_iff d k).mp hs)
  rw [dictSet, if_neg (by simp [hc])]
  simp [dictKeys]

theorem dictGet_map_replace {α : Type} (d : Dict α) (k : Nat) (v : α) :
    dictGet (d.map (fun e => if e.1 == k then (k, v) else e)) k
      = if (dictGet d k).isSome then some v else none := by
  induction d with
  | nil => simp [dictGet]
  | cons e rest ih =>
      obtain ⟨k', v'⟩ := e
      by_cases h : k' = k
      · subst h
        simp [dictGet_cons]
      · simp only [List.map_cons]
        rw [show ((if (k', v').1 == k then (k, v) else (k', v')) : Nat × α)
              = (k', v') by simp [h]]
        rw [dictGet_cons, dictGet_cons, if_neg h, if_neg h, ih]

theorem dictGet_append_of_none {α : Type} {d : Dict α} {k : Nat}
    (h : dictGet d k = none) (d₂ : Dict α) :
    dictGet (d ++ d₂) k = dictGet d₂ k := by
  induction d with
  | nil => simp
  | cons e rest ih =>
      obtain ⟨k', v'⟩ := e
      rw [dictGet_cons] at h
      by_cases hk : k' = k
      · simp [hk] at h
      · rw [List.cons_append, dictGet_cons, if_neg hk]
        exact ih (by simpa [hk] using h)

theorem dictGet_append_left {α : Type} {d : Dict α} {k : Nat} {v : α}
    (h : dictGet d k = some v) (d₂ : Dict α) :
    dictGet (d ++ d₂) k = some v := by
  induction d with
  | nil => simp [dictGet] at h
  | cons e rest ih =>
      obtain ⟨k', v'⟩ := e
      rw [dictGet_cons] at h
      rw [List.cons_append, dictGet_cons]
      by_cases hk : k' = k
      · rwa [if_pos hk] at h ⊢
      · rw [if_neg hk] at h ⊢
        exact ih h

theorem dictGet_dictSet_self {α : Type} (d : Dict α) (k : Nat) (v : α) :
    dictGet (dictSet d k v) k = some v := by
  unfold dictSet
  by_cases h : (d.find? (fun e => e.1 == k)).isSome = true
  · rw [if_pos h, dictGet_map_replace, if_pos]
    rwa [← find?_isSome_eq]
  · rw [if_neg h]
    have hn : dictGet d k = none := by
      rw [← Option.not_isSome_iff_eq_none, ← find?_isSome_eq]
      simpa using h
    rw [dictGet_append_of_none hn, dictGet_cons, if_pos rfl]

theorem dictGet_map_replace_ne {α : Type} (d : Dict α) {k k' : Nat}
    (h : k' ≠ k) (v : α) :
    dictGet (d.map (fun e => if e.1 == k then (k, v) else e)) k'
      = dictGet d k' := by
  induction d with
  | nil => rfl
  | cons e rest ih =>
      obtain ⟨k'', v''⟩ := e
      by_cases hk : k'' = k
      · subst hk
        simp only [List.map_cons, beq_self_eq_true, if_pos]
        rw [dictGet_cons, dictGet_cons, if_neg (fun hh => h hh.symm),
          if_neg (fun hh => h hh.symm)]
        exact ih
      · simp only [List.map_cons]
        rw [show ((if (k'', v'').1 == k then (k, v) else (k'', v'')) : Nat × α)
              = (k'', v'') by simp [hk]]
        rw [dictGet_cons, dictGet_cons]
        by_cases hk' : k'' = k'
        · rw [if_pos hk', if_pos hk']
        · rw [if_neg hk', if_neg hk', ih]

theorem dictGet_dictSet_ne {α : Type} (d : Dict α) {k k' : Nat}
    (h : k' ≠ k) (v : α) : dictGet (dictSet d k v) k' = dictGet d k' := by
  unfold dictSet
  by_cases hc : (d.find? (fun e => e.1 == k)).isSome = true
  · rw [if_pos hc]
    exact dictGet_map_replace_ne d h v
  · rw [if_neg hc]
    cases hg : dictGet d k' with
    | some w =>
        rw [dictGet_append_left hg]
    | none =>
        rw [dictGet_append_of_none hg, dictGet_cons,
          if_neg (fun hh => h hh.symm)]
        rfl

theorem dictGet_eq_some_of_mem {α : Type} {d : Dict α}
    (hnd : (dictKeys d).Nodup) {k : Nat} {v : α} (h : (k, v) ∈ d) :
    dictGet d k = some v := by
  induction d with
  | nil => simp at h
  | cons e rest ih =>
      obtain ⟨k', v'⟩ := e
      have hnd' : k' ∉ dictKeys rest ∧ (dictKeys rest).Nodup := by
        simpa [dictKeys] using hnd
      rcases List.mem_cons.mp h with h1 | h2
      · obtain ⟨rfl, rfl⟩ := Prod.mk.injEq .. ▸ h1
        rw [dictGet_cons, if_pos rfl]
      · have hk : k' ≠ k := by
          intro he
          subst he
          exact hnd'.1 (by simpa [dictKeys] using List.mem_map_of_mem Prod.fst h2)
        rw [dictGet_cons, if_neg hk]
        exact ih hnd'.2 h2

theorem mem_of_dictGet_eq_some {α : Type} {d : Dict α} {k : Nat} {v : α}
    (h : dictGet d k = some v) : (k, v) ∈ d := by
  induction d with
  | nil => simp [dictGet] at h
  | cons e rest ih =>
      obtain ⟨k', v'⟩ := e
      rw [dictGet_cons] at h
      by_cases hk : k' = k
      · rw [if_pos hk] at h
        subst hk
        obtain rfl : v' = v := by simpa using h
        exact List.mem_cons_self _ _
      · rw [if_neg hk] at h
        exact List.mem_cons_of_mem _ (ih h)

theorem dictKeys_perm {α : Type} {d₁ d₂ : Dict α} (hp : List.Perm d₁ d₂) :
    List.Perm (dictKeys d₁) (dictKeys d₂) :=
  hp.map Prod.fst

theorem dictGet_congr_perm {α : Type} {d₁ d₂ : Dict α}
    (hp : List.Perm d₁ d₂) (hnd : (dictKeys d₁).Nodup) (k : Nat) :
    dictGet d₁ k = dictGet d₂ k := by
  have hnd₂ : (dictKeys d₂).Nodup := ((dictKeys_perm hp).nodup_iff).mp hnd
  cases hc : dictGet d₁ k with
  | some v =>
      exact (dictGet_eq_some_of_mem hnd₂
        (hp.mem_iff.mp (mem_of_dictGet_eq_some hc))).symm
  | none =>
      have hk : k ∉ dictKeys d₁ := (dictGet_eq_none_iff d₁ k).mp hc
      exact ((dictGet_eq_none_iff d₂ k).mpr
        (fun hm => hk ((dictKeys_perm hp).mem_iff.mpr hm))).symm

theorem map_lookup_keys {α : Type} {d : Dict α} (hnd : (dictKeys d).Nodup)
    (dflt : α) :
    (dictKeys d).map (fun p => (dictGet d p).getD dflt) = d.map (·.2) := by
  unfold dictKeys
  rw [List.map_map]
  apply List.map_congr_left
  intro e he
  have := dictGet_eq_some_of_mem hnd (k := e.1) (v := e.2) (by simpa using he)
  simp [Function.comp, this]

/-! ## Aggregator lemmas -/

theorem stats_loop_fst (pm tt : Dict (List ℚ)) :
    (stats_loop pm tt).1 = stats_entries tt pm := by
  induction tt with
  | nil => rfl
  | cons e rest ih => simp [stats_loop, stats_entries, ih]

theorem stats_loop_time (pm tt : Dict (List ℚ)) :
    (stats_loop pm tt).2.1 = ((stats_entries tt pm).map (·.2.avg_time)).sum := by
  induction tt with
  | nil => rfl
  | cons e rest ih => simp [stats_loop, stats_entries, ih]

theorem stats_loop_mem (pm tt : Dict (List ℚ)) :
    (stats_loop pm tt).2.2 = ((stats_entries tt pm).map (·.2.avg_mem)).sum := by
  induction tt with
  | nil => rfl
  | cons e rest ih => simp [stats_loop, stats_entries, ih]

theorem dictKeys_stats_entries (tt pm : Dict (List ℚ)) :
    dictKeys (stats_entries tt pm) = dictKeys tt := by
  simp [stats_entries, dictKeys, List.map_map]

/-! ## Runner lemmas -/

theorem record_result_fresh (s : RunnerState) (p : Nat) (r : RunResult)
    (h1 : dictGet s.times_taken p = none) :
    record_result s p r =
      { times_taken := dictSet (dictSet s.times_taken p []) p [r.timeMs],
        peak_memory_usage :=
          dictSet (dictSet s.peak_memory_usage p []) p [r.peakMemory],
        file_info := dictSet s.file_info p (r.ext, r.lines, r.sizeKB) } := by
  simp [record_result, h1, dictGet_dictSet_self]

theorem record_result_existing (s : RunnerState) (p : Nat) (r : RunResult)
    {ts ms : List ℚ} (h1 : dictGet s.times_taken p = some ts)
    (h2 : dictGet s.peak_memory_usage p = some ms) :
    record_result s p r =
      { times_taken := dictSet s.times_taken p (ts ++ [r.timeMs]),
        peak_memory_usage :=
          dictSet s.peak_memory_usage p (ms ++ [r.peakMemory]),
        file_info := s.file_info } := by
  simp [record_result, h1, h2]

/-! ## Claim C1 -/

/-- Claim C1, counterexample.  Two solution files for problem 1 in the same
iteration, taking 100 ms / 30 MB and 300 ms / 45 MB with 5 lines / 1 kB and
7 lines / 2 kB: `_record_result` leaves the problem's time samples as
`[100, 300]` (not a summed `[400]`), its memory samples as `[30, 45]` (not
the maximum `45` alone), and its file info as the first file's
`(".py", 5, 1)` (not the summed `(".py", 12, 3)`). -/
theorem c1_counterexample :
    dictGet (record_result (record_result initialState 1 ⟨".py", 5, 1, 100, 30⟩)
        1 ⟨".py", 7, 2, 300, 45⟩).times_taken 1 = some [100, 300] ∧
    dictGet (record_result (record_result initialState 1 ⟨".py", 5, 1, 100, 30⟩)
        1 ⟨".py", 7, 2, 300, 45⟩).peak_memory_usage 1 = some [30, 45] ∧
    dictGet (record_result (record_result initialState 1 ⟨".py", 5, 1, 100, 30⟩)
        1 ⟨".py", 7, 2, 300, 45⟩).file_info 1 = some (".py", 5, 1) ∧
    ¬ (dictGet (record_result (record_result initialState 1 ⟨".py", 5, 1, 100, 30⟩)
          1 ⟨".py", 7, 2, 300, 45⟩).times_taken 1 = some [400] ∧
       dictGet (record_result (record_result initialState 1 ⟨".py", 5, 1, 100, 30⟩)
          1 ⟨".py", 7, 2, 300, 45⟩).peak_memory_usage 1 = some [45] ∧
       dictGet (record_result (record_result initialState 1 ⟨".py", 5, 1, 100, 30⟩)
          1 ⟨".py", 7, 2, 300, 45⟩).file_info 1 = some (".py", 12, 3)) := by
  decide

/-- Claim C1, amended.  When several solution files of one problem are
recorded by `ScriptRunner._record_result` (here: two results for a
problem not yet present in the runner state), each successful run appends
its elapsed time and its peak memory as a separate sample to the
problem's lists, and the problem's file-info triple keeps the language,
line count and size of the first successful file only; nothing is summed
and no maximum is taken.  The summed-time / summed-lines / summed-size /
maximum-memory per-iteration accumulation described by the spec exists
only in the legacy `execute_challenge_scripts` day loop, whose behaviour
on two results is stated by the last conjunct. -/
theorem c1_each_file_is_a_separate_sample (p : Nat) (r₁ r₂ : RunResult)
    (s : RunnerState) (h1 : dictGet s.times_taken p = none)
    (l₁ l₂ : LegacyResult) :
    dictGet (record_result (record_result s p r₁) p r₂).times_taken p
      = some [r₁.timeMs, r₂.timeMs] ∧
    dictGet (record_result (record_result s p r₁) p r₂).peak_memory_usage p
      = some [r₁.peakMemory, r₂.peakMemory] ∧
    dictGet (record_result (record_result s p r₁) p r₂).file_info p
      = some (r₁.ext, r₁.lines, r₁.sizeKB) ∧
    day_accum [l₁, l₂]
      = { day_time := l₁.elapsed_sec * 1000 + l₂.elapsed_sec * 1000,
          day_lines := l₁.line_count + l₂.line_count,
          day_size := l₁.file_sizeKB + l₂.file_sizeKB,
          day_peak_memory := max (max 0 l₁.peak_memoryMB) l₂.peak_memoryMB } := by
  have e1 := record_result_fresh s p r₁ h1
  have l1 : dictGet (record_result s p r₁).times_taken p = some [r₁.timeMs] := by
    rw [e1]
    exact dictGet_dictSet_self _ _ _
  have l2 : dictGet (record_result s p r₁).peak_memory_usage p
      = some [r₁.peakMemory] := by
    rw [e1]
    exact dictGet_dictSet_self _ _ _
  have e2 := record_result_existing (record_result s p r₁) p r₂ l1 l2
  refine ⟨?_, ?_, ?_, ?_⟩
  · rw [e2]
    exact dictGet_dictSet_self _ _ _
  · rw [e2]
    exact dictGet_dictSet_self _ _ _
  · rw [e2, e1]
    exact dictGet_dictSet_self _ _ _
  · simp [day_accum]

/-- Claim C1, witness: the amended statement evaluated on the scenario's
two files, with the legacy day loop yielding the summed 400 ms and the
maximal 45 MB on the same two runs (0.1 s / 30 MB and 0.3 s / 45 MB). -/
theorem c1_witness :
    dictGet (record_result (record_result initialState 2 ⟨".jl", 5, 1, 100, 30⟩)
        2 ⟨".jl", 7, 2, 300, 45⟩).times_taken 2 = some [100, 300] ∧
    dictGet (record_result (record_result initialState 2 ⟨".jl", 5, 1, 100, 30⟩)
        2 ⟨".jl", 7, 2, 300, 45⟩).peak_memory_usage 2 = some [30, 45] ∧
    dictGet (record_result (record_result initialState 2 ⟨".jl", 5, 1, 100, 30⟩)
        2 ⟨".jl", 7, 2, 300, 45⟩).file_info 2 = some (".jl", 5, 1) ∧
    day_accum [⟨".py", 10, 1, 1 / 10, 30⟩, ⟨".py", 12, 2, 3 / 10, 45⟩]
      = { day_time := 400, day_lines := 22, day_size := 3,
          day_peak_memory := 45 } := by
  have h := c1_each_file_is_a_separate_sample 2 ⟨".jl", 5, 1, 100, 30⟩
    ⟨".jl", 7, 2, 300, 45⟩ initialState rfl
    ⟨".py", 10, 1, 1 / 10, 30⟩ ⟨".py", 12, 2, 3 / 10, 45⟩
  refine ⟨h.1, h.2.1, h.2.2.1, ?_⟩
  rw [h.2.2.2]
  have hm : max (max (0 : ℚ) 30) 45 = 45 := by
    rw [max_eq_right (by norm_num : (0 : ℚ) ≤ 30),
      max_eq_right (by norm_num : (30 : ℚ) ≤ 45)]
  simp only [DayAccum.mk.injEq, hm]
  norm_num

/-! ## Claim C2 -/

/-- Claim C2, counterexample.  A `.c` candidate whose compile step takes
50 ms and whose run step takes 100 ms: `run_script` reports an elapsed
time of 150 ms, not the 100 ms of the run child alone, because
`start_time = time.time()` is taken before the compile step. -/
theorem c2_counterexample :
    (run_script ⟨"01_sol.c", ".c", 12, 1⟩ ⟨0, 50, 0, 100, 30⟩).elapsed?
        = some 150 ∧
    ((⟨0, 50, 0, 100, 30⟩ : ExecEnv)).runMs ≠ (150 : ℚ) := by
  constructor
  · unfold run_script
    rw [if_neg (by decide), if_neg (by decide)]
    dsimp only
    rw [if_neg (by decide), if_neg (by decide)]
    simp only [RunOutcome.elapsed?, Option.some.injEq]
    norm_num [compiled_exts]
  · norm_num

/-- Claim C2, amended.  For every successful run of a compiled-language
candidate, the elapsed wall-clock time in the result equals the compile
step's duration plus the run child's duration: the clock starts before
the compile step, so compile time is included. -/
theorem c2_elapsed_includes_compile (f : SourceFile) (env : ExecEnv)
    (hc : f.ext ∈ compiled_exts) (r : RunResult)
    (h : run_script f env = RunOutcome.success r) :
    r.timeMs = env.compileMs + env.runMs := by
  unfold run_script at h
  by_cases h1 : f.ext ∈ unsupported_exts ∨ starts_with skip_marker.data f.name.data
  · rw [if_pos h1] at h
    simp at h
  · rw [if_neg h1] at h
    by_cases h2 : f.ext ∉ language_config_keys
    · rw [if_pos h2] at h
      simp at h
    · rw [if_neg h2] at h
      dsimp only at h
      by_cases h3 : f.ext ∈ compiled_exts ∧ env.compileExit ≠ 0
      · rw [if_pos h3] at h
        simp at h
      · rw [if_neg h3] at h
        by_cases h4 : env.runExit ≠ 0
        · rw [if_pos h4] at h
          simp at h
        · rw [if_neg h4] at h
          injection h with h'
          rw [← h']
          simp [hc]

/-- Claim C2, witness: the amended statement on a concrete `.c` candidate
with a 50 ms compile and a 100 ms run. -/
theorem c2_witness :
    (run_script ⟨"01_sol.c", ".c", 12, 1⟩ ⟨0, 50, 0, 100, 30⟩).elapsed?
      = some ((⟨0, 50, 0, 100, 30⟩ : ExecEnv).compileMs
          + (⟨0, 50, 0, 100, 30⟩ : ExecEnv).runMs) := by
  have h : run_script ⟨"01_sol.c", ".c", 12, 1⟩ ⟨0, 50, 0, 100, 30⟩
      = RunOutcome.success ⟨".c", 12, 1, 150, 30⟩ := by
    unfold run_script
    rw [if_neg (by decide), if_neg (by decide)]
    dsimp only
    rw [if_neg (by decide), if_neg (by decide)]
    simp only [RunOutcome.success.injEq, RunResult.mk.injEq]
    norm_num [compiled_exts]
  have ht := c2_elapsed_includes_compile ⟨"01_sol.c", ".c", 12, 1⟩
    ⟨0, 50, 0, 100, 30⟩ (by decide) ⟨".c", 12, 1, 150, 30⟩ h
  rw [h]
  simp only [RunOutcome.elapsed?, Option.some.injEq]
  exact ht

/-! ## Claim C7 -/

/-- Claim C7: a compiled-language candidate whose compile command exits
with non-zero status never yields a success result, and the directory
walker's recording step (`if result: self._record_result(...)`) leaves
the runner state — time samples, memory samples and file info —
unchanged. -/
theorem c7_compile_failure_leaves_state_unchanged (f : SourceFile)
    (env : ExecEnv) (hc : f.ext ∈ compiled_exts)
    (hfail : env.compileExit ≠ 0) :
    (∀ r, run_script f env ≠ RunOutcome.success r) ∧
    (∀ (s : RunnerState) (p : Nat),
      process_result s p (run_script f env) = s) := by
  have hkeys : f.ext ∈ language_config_keys := by
    have hc' := hc
    simp only [compiled_exts, List.mem_cons, List.not_mem_nil, or_false] at hc'
    rcases hc' with h | h | h | h <;> rw [h] <;> decide
  have hout : run_script f env = RunOutcome.skipped ∨
      run_script f env = RunOutcome.compileFailed := by
    unfold run_script
    by_cases h1 : f.ext ∈ unsupported_exts ∨ starts_with skip_marker.data f.name.data
    · rw [if_pos h1]
      exact Or.inl rfl
    · rw [if_neg h1, if_neg (fun hn => hn hkeys)]
      dsimp only
      rw [if_pos ⟨hc, hfail⟩]
      exact Or.inr rfl
  constructor
  · intro r hr
    rcases hout with h | h <;> rw [h] at hr <;> simp at hr
  · intro s p
    rcases hout with h | h <;> rw [h] <;> rfl

/-- Claim C7, witness: a `.c` candidate with compiler exit status 1
against a non-empty runner state. -/
theorem c7_witness :
    process_result
        { times_taken := [(1, [5])], file_info := [(1, (".py", 3, 1))],
          peak_memory_usage := [(1, [9])] } 1
        (run_script ⟨"07_sol.c", ".c", 40, 2⟩ ⟨1, 30, 0, 100, 25⟩)
      = { times_taken := [(1, [5])], file_info := [(1, (".py", 3, 1))],
          peak_memory_usage := [(1, [9])] } ∧
    run_script ⟨"07_sol.c", ".c", 40, 2⟩ ⟨1, 30, 0, 100, 25⟩
      ≠ RunOutcome.success ⟨".c", 40, 2, 130, 25⟩ :=
  ⟨(c7_compile_failure_leaves_state_unchanged ⟨"07_sol.c", ".c", 40, 2⟩
      ⟨1, 30, 0, 100, 25⟩ (by decide) (by decide)).2 _ 1,
   (c7_compile_failure_leaves_state_unchanged ⟨"07_sol.c", ".c", 40, 2⟩
      ⟨1, 30, 0, 100, 25⟩ (by decide) (by decide)).1 _⟩

/-! ## Claim C8 -/

/-- Claim C8: a candidate file whose name begins with the skip marker
`"Alt"` is answered with the skipped outcome by the very first test of
`run_script`, before the language lookup, the compile step or the
execution step, whatever its extension. -/
theorem c8_skip_marker_always_skips (f : SourceFile) (env : ExecEnv)
    (h : starts_with skip_marker.data f.name.data) :
    run_script f env = RunOutcome.skipped := by
  unfold run_script
  rw [if_pos (Or.inr h)]

/-- Claim C8, witness: a file named `AltSolution.c` — a compiled
extension — is skipped. -/
theorem c8_witness :
    run_script ⟨"AltSolution.c", ".c", 80, 3⟩ ⟨0, 10, 0, 10, 10⟩
      = RunOutcome.skipped :=
  c8_skip_marker_always_skips ⟨"AltSolution.c", ".c", 80, 3⟩
    ⟨0, 10, 0, 10, 10⟩ (by decide)

/-! ## Claim C10 -/

theorem StateInv_record_result {s : RunnerState} (hinv : StateInv s)
    (p : Nat) (r : RunResult) : StateInv (record_result s p r) := by
  obtain ⟨hfi, hpm, hlen⟩ := hinv
  cases h1 : dictGet s.times_taken p with
  | none =>
      have hpnone : dictGet s.peak_memory_usage p = none := by
        rw [dictGet_eq_none_iff] at h1 ⊢
        rwa [← hpm]
      have htt_keys : p ∉ dictKeys s.times_taken :=
        (dictGet_eq_none_iff _ _).mp h1
      have hfi_keys : p ∉ dictKeys s.file_info := by
        rw [← hfi]
        exact htt_keys
      have hpm_keys : p ∉ dictKeys s.peak_memory_usage :=
        (dictGet_eq_none_iff _ _).mp hpnone
      have i1 : dictKeys (dictSet s.times_taken p ([] : List ℚ))
          = dictKeys s.times_taken ++ [p] :=
        dictKeys_dictSet_of_not_mem htt_keys _
      have i2 : p ∈ dictKeys (dictSet s.times_taken p ([] : List ℚ)) := by
        rw [i1]
        simp
      have j1 : dictKeys (dictSet s.peak_memory_usage p ([] : List ℚ))
          = dictKeys s.peak_memory_usage ++ [p] :=
        dictKeys_dictSet_of_not_mem hpm_keys _
      have j2 : p ∈ dictKeys (dictSet s.peak_memory_usage p ([] : List ℚ)) := by
        rw [j1]
        simp
      rw [record_result_fresh s p r h1]
      refine ⟨?_, ?_, ?_⟩
      · rw [dictKeys_dictSet_of_mem i2, i1,
          dictKeys_dictSet_of_not_mem hfi_keys, hfi]
      · rw [dictKeys_dictSet_of_mem i2, i1, dictKeys_dictSet_of_mem j2, j1,
          hpm]
      · intro q ts ms hts hms
        by_cases hq : q = p
        · subst hq
          rw [dictGet_dictSet_self] at hts hms
          obtain rfl : [r.timeMs] = ts := by simpa using hts
          obtain rfl : [r.peakMemory] = ms := by simpa using hms
          rfl
        · rw [dictGet_dictSet_ne _ hq, dictGet_dictSet_ne _ hq] at hts
          rw [dictGet_dictSet_ne _ hq, dictGet_dictSet_ne _ hq] at hms
          exact hlen q ts ms hts hms
  | some ts₀ =>
      have hp_mem : p ∈ dictKeys s.times_taken :=
        (dictGet_isSome_iff _ _).mp (by rw [h1]; rfl)
      have hp_mem' : p ∈ dictKeys s.peak_memory_usage := hpm ▸ hp_mem
      obtain ⟨ms₀, hms₀⟩ : ∃ v, dictGet s.peak_memory_usage p = some v :=
        Option.isSome_iff_exists.mp ((dictGet_isSome_iff _ _).mpr hp_mem')
      rw [record_result_existing s p r h1 hms₀]
      refine ⟨?_, ?_, ?_⟩
      · rw [dictKeys_dictSet_of_mem hp_mem, hfi]
      · rw [dictKeys_dictSet_of_mem hp_mem,
          dictKeys_dictSet_of_mem hp_mem', hpm]
      · intro q ts ms hts hms
        by_cases hq : q = p
        · subst hq
          rw [dictGet_dictSet_self] at hts hms
          obtain rfl : ts₀ ++ [r.timeMs] = ts := by simpa using hts
          obtain rfl : ms₀ ++ [r.peakMemory] = ms := by simpa using hms
          simp [hlen q ts₀ ms₀ h1 hms₀]
        · rw [dictGet_dictSet_ne _ hq] at hts hms
          exact hlen q ts ms hts hms

/-- Claim C10: after any sequence of recorded results starting from the
fresh runner state, the per-problem time map, peak-memory map and
file-info map hold exactly the same keys, and every problem's
time-sample list and memory-sample list have the same length (each
successful run appends exactly one entry to each). -/
theorem c10_record_state_invariant (ops : List (Nat × RunResult)) :
    StateInv (record_all initialState ops) := by
  have hinit : StateInv initialState := by
    refine ⟨rfl, rfl, ?_⟩
    intro p ts ms hts _
    simp [initialState, dictGet] at hts
  suffices h : ∀ s, StateInv s → StateInv (record_all s ops) from h _ hinit
  induction ops with
  | nil =>
      intro s hs
      exact hs
  | cons e rest ih =>
      intro s hs
      obtain ⟨p, r⟩ := e
      exact ih _ (StateInv_record_result hs p r)

/-! ## Table shape lemmas -/

theorem generate_table_def (fi : Dict (String × Nat × ℚ))
    (tt pm : Dict (List ℚ)) :
    generate_table fi tt pm =
      (((dictKeys tt).insertionSort (· ≤ ·)).map (fun p =>
        ({ label := some p,
           avg_time := ((dictGet (calculate_stats tt pm).1 p).getD
             ⟨0, 0, 0, 0⟩).avg_time,
           std_time := ((dictGet (calculate_stats tt pm).1 p).getD
             ⟨0, 0, 0, 0⟩).std_time,
           time_pct := if 0 < (calculate_stats tt pm).2.time then
             ((dictGet (calculate_stats tt pm).1 p).getD
               ⟨0, 0, 0, 0⟩).avg_time / (calculate_stats tt pm).2.time * 100
             else 0,
           avg_mem := ((dictGet (calculate_stats tt pm).1 p).getD
             ⟨0, 0, 0, 0⟩).avg_mem,
           std_mem := ((dictGet (calculate_stats tt pm).1 p).getD
             ⟨0, 0, 0, 0⟩).std_mem,
           mem_pct := if 0 < (calculate_stats tt pm).2.memory then
             ((dictGet (calculate_stats tt pm).1 p).getD
               ⟨0, 0, 0, 0⟩).avg_mem / (calculate_stats tt pm).2.memory * 100
             else 0,
           lang := ((dictGet fi p).getD ("", 0, 0)).1,
           sizeKB := ((dictGet fi p).getD ("", 0, 0)).2.2,
           lines := ((dictGet fi p).getD ("", 0, 0)).2.1 } : SummaryRow))) ++
      [{ label := none,
         avg_time := (calculate_stats tt pm).2.time,
         std_time := (calculate_stats tt pm).2.time_std,
         time_pct := 100,
         avg_mem := (calculate_stats tt pm).2.memory,
         std_mem := (calculate_stats tt pm).2.memory_std,
         mem_pct := 100,
         lang := "",
         sizeKB := (((dictKeys tt).insertionSort (· ≤ ·)).map
           (fun p => ((dictGet fi p).getD ("", 0, 0)).2.2)).sum,
         lines := (((dictKeys tt).insertionSort (· ≤ ·)).map
           (fun p => ((dictGet fi p).getD ("", 0, 0)).2.1)).sum }] := rfl

theorem calculate_stats_fst (tt pm : Dict (List ℚ)) :
    (calculate_stats tt pm).1 = stats_entries tt pm :=
  stats_loop_fst pm tt

theorem calculate_stats_time (tt pm : Dict (List ℚ)) :
    (calculate_stats tt pm).2.time
      = ((stats_entries tt pm).map (·.2.avg_time)).sum :=
  stats_loop_time pm tt

theorem calculate_stats_memory (tt pm : Dict (List ℚ)) :
    (calculate_stats tt pm).2.memory
      = ((stats_entries tt pm).map (·.2.avg_mem)).sum :=
  stats_loop_mem pm tt

theorem calculate_stats_time_std (tt pm : Dict (List ℚ)) :
    (calculate_stats tt pm).2.time_std
      = ((stats_entries tt pm).map (·.2.std_time)).sum := by
  show ((stats_loop pm tt).1.map (·.2.std_time)).sum = _
  rw [stats_loop_fst]

theorem calculate_stats_memory_std (tt pm : Dict (List ℚ)) :
    (calculate_stats tt pm).2.memory_std
      = ((stats_entries tt pm).map (·.2.std_mem)).sum := by
  show ((stats_loop pm tt).1.map (·.2.std_mem)).sum = _
  rw [stats_loop_fst]

/-! ## Claim C4 -/

/-- Claim C4: for a problem with at least one (non-negative) recorded
sample, the aggregated average time is the arithmetic mean of exactly
the recorded per-iteration elapsed times and is non-negative, and the
standard deviation is the population standard deviation (square root of
the `ddof = 0` variance) of those samples; on the scenario samples
120 ms / 50 MB and 140 ms / 52 MB this gives average time 130, average
memory 51 and time standard deviation 10. -/
theorem c4_average_is_mean_of_samples (times mems : List ℚ)
    (h : times ≠ []) (hnn : ∀ t ∈ times, 0 ≤ t) :
    (problem_stats times mems).avg_time = times.sum / times.length ∧
    0 ≤ (problem_stats times mems).avg_time ∧
    (problem_stats times mems).std_time = Real.sqrt (popVar times) ∧
    (problem_stats [120, 140] [50, 52]).avg_time = 130 ∧
    (problem_stats [120, 140] [50, 52]).avg_mem = 51 ∧
    (problem_stats [120, 140] [50, 52]).std_time = 10 := by
  refine ⟨?_, ?_, ?_, ?_, ?_, ?_⟩
  · simp [problem_stats, h, listMean]
  · simp only [problem_stats, if_neg h]
    exact div_nonneg (List.sum_nonneg hnn) (Nat.cast_nonneg _)
  · simp [problem_stats, h, npStd]
  · have hne : ([120, 140] : List ℚ) ≠ [] := by simp
    simp only [problem_stats, if_neg hne]
    norm_num [listMean]
  · have hne : ([50, 52] : List ℚ) ≠ [] := by simp
    simp only [problem_stats, if_neg hne]
    norm_num [listMean]
  · have hv : popVar [120, 140] = 100 := by
      norm_num [popVar, listMean]
    have hne : ([120, 140] : List ℚ) ≠ [] := by simp
    simp only [problem_stats, if_neg hne, npStd, hv]
    rw [show (((100 : ℚ)) : ℝ) = (10 : ℝ) ^ 2 by norm_num,
      Real.sqrt_sq (by norm_num : (0 : ℝ) ≤ 10)]

/-- Claim C4, witness: the scenario instance of the theorem. -/
theorem c4_witness :
    (problem_stats [120, 140] [50, 52]).avg_time = 130 ∧
    (problem_stats [120, 140] [50, 52]).avg_mem = 51 ∧
    (problem_stats [120, 140] [50, 52]).std_time = 10 := by
  have h := c4_average_is_mean_of_samples [120, 140] [50, 52] (by simp)
    (by norm_num)
  exact ⟨h.2.2.2.1, h.2.2.2.2.1, h.2.2.2.2.2⟩

/-! ## Claim C6 -/

/-- Claim C6: the generated table's trailing totals row carries, for time
and memory alike, the plain sum of the per-problem averages, and its
standard-deviation cells are the arithmetic sums of the per-problem
standard deviations (not a statistically combined standard deviation). -/
theorem c6_totals_row_sums_stats (fi : Dict (String × Nat × ℚ))
    (tt pm : Dict (List ℚ)) :
    ((generate_table fi tt pm).getLast?.map (·.avg_time))
      = some (((stats_entries tt pm).map (·.2.avg_time)).sum) ∧
    ((generate_table fi tt pm).getLast?.map (·.avg_mem))
      = some (((stats_entries tt pm).map (·.2.avg_mem)).sum) ∧
    ((generate_table fi tt pm).getLast?.map (·.std_time))
      = some (((stats_entries tt pm).map (·.2.std_time)).sum) ∧
    ((generate_table fi tt pm).getLast?.map (·.std_mem))
      = some (((stats_entries tt pm).map (·.2.std_mem)).sum) := by
  rw [generate_table_def, List.getLast?_concat]
  refine ⟨?_, ?_, ?_, ?_⟩
  · simp [calculate_stats_time]
  · simp [calculate_stats_memory]
  · simp [calculate_stats_time_std]
  · simp [calculate_stats_memory_std]

/-! ## Claim C3 -/

/-- Claim C3, counterexample: with recorded samples `{1: [0]}` (a single
zero elapsed time, no strictly positive time at all) and memory
`{1: [0]}`, `generate_table` still emits a row labelled with problem 1 —
the row is not suppressed. -/
theorem c3_counterexample :
    (∀ t ∈ ([(0 : ℚ)] : List ℚ), ¬ (0 < t)) ∧
    some 1 ∈ (generate_table [] [(1, [(0 : ℚ)])] [(1, [(0 : ℚ)])]).map
      (fun r => r.label) := by
  constructor
  · intro t ht
    have h0 : t = 0 := by simpa using ht
    rw [h0]
    norm_num
  · rw [generate_table_def, List.map_append, List.map_map]
    simp [Function.comp, dictKeys, List.insertionSort, List.orderedInsert]

/-- Claim C3, amended: a problem contributes a row to the generated
SummaryTable exactly when it has an entry in the recorded times map —
regardless of whether any of its recorded elapsed times is strictly
positive.  (Problems absent from the map contribute no row.) -/
theorem c3_row_iff_problem_recorded (fi : Dict (String × Nat × ℚ))
    (tt pm : Dict (List ℚ)) (p : Nat) :
    some p ∈ (generate_table fi tt pm).map (fun r => r.label)
      ↔ p ∈ dictKeys tt := by
  rw [generate_table_def, List.map_append, List.map_map]
  simp [Function.comp, List.mem_map,
    (List.perm_insertionSort (· ≤ ·) (dictKeys tt)).mem_iff]

/-! ## Claim C5 -/

theorem sum_sorted_lookup (tt pm : Dict (List ℚ))
    (hnd : (dictKeys tt).Nodup) (f : ProblemStats → ℚ) :
    (((dictKeys tt).insertionSort (· ≤ ·)).map
        (fun p => f ((dictGet (calculate_stats tt pm).1 p).getD
          ⟨0, 0, 0, 0⟩))).sum
      = ((stats_entries tt pm).map (fun e => f e.2)).sum := by
  rw [calculate_stats_fst]
  have hkeys : dictKeys (stats_entries tt pm) = dictKeys tt :=
    dictKeys_stats_entries tt pm
  have hnd' : (dictKeys (stats_entries tt pm)).Nodup := by rwa [hkeys]
  have hperm : List.Perm ((dictKeys tt).insertionSort (· ≤ ·))
      (dictKeys (stats_entries tt pm)) := by
    rw [hkeys]
    exact List.perm_insertionSort _ _
  rw [(hperm.map _).sum_eq]
  rw [show (dictKeys (stats_entries tt pm)).map
        (fun p => f ((dictGet (stats_entries tt pm) p).getD ⟨0, 0, 0, 0⟩))
      = ((dictKeys (stats_entries tt pm)).map
        (fun p => (dictGet (stats_entries tt pm) p).getD ⟨0, 0, 0, 0⟩)).map f
      from (List.map_map ..).symm]
  rw [map_lookup_keys hnd' ⟨0, 0, 0, 0⟩, List.map_map]
  rfl

/-- Claim C5: in every generated table, the non-total rows' time
percentages sum to exactly 100 whenever the total time is strictly
positive, and each is 0 when the total time is zero; the same holds for
the memory-percentage column with respect to total memory. -/
theorem c5_percentage_columns_sum_to_100 (fi : Dict (String × Nat × ℚ))
    (tt pm : Dict (List ℚ)) (hnd : (dictKeys tt).Nodup) :
    (0 < (calculate_stats tt pm).2.time →
      (((generate_table fi tt pm).dropLast).map (·.time_pct)).sum = 100) ∧
    ((calculate_stats tt pm).2.time = 0 →
      ∀ r ∈ (generate_table fi tt pm).dropLast, r.time_pct = 0) ∧
    (0 < (calculate_stats tt pm).2.memory →
      (((generate_table fi tt pm).dropLast).map (·.mem_pct)).sum = 100) ∧
    ((calculate_stats tt pm).2.memory = 0 →
      ∀ r ∈ (generate_table fi tt pm).dropLast, r.mem_pct = 0) := by
  rw [generate_table_def, List.dropLast_concat]
  refine ⟨?_, ?_, ?_, ?_⟩
  · intro hT
    rw [List.map_map]
    simp only [Function.comp_def, hT, if_true, div_mul_eq_mul_div,
      mul_div_assoc]
    rw [List.sum_map_mul_right, sum_sorted_lookup tt pm hnd (·.avg_time),
      ← calculate_stats_time, mul_comm,
      div_mul_cancel₀ _ (ne_of_gt hT)]
  · intro hT r hr
    obtain ⟨p, _, rfl⟩ := List.mem_map.mp hr
    simp [hT]
  · intro hM
    rw [List.map_map]
    simp only [Function.comp_def, hM, if_true, div_mul_eq_mul_div,
      mul_div_assoc]
    rw [List.sum_map_mul_right, sum_sorted_lookup tt pm hnd (·.avg_mem),
      ← calculate_stats_memory, mul_comm,
      div_mul_cancel₀ _ (ne_of_gt hM)]
  · intro hM r hr
    obtain ⟨p, _, rfl⟩ := List.mem_map.mp hr
    simp [hM]

/-- Claim C5, witness: a two-problem table with recorded times 100 and
300 and memories 30 and 45; both percentage columns sum to 100. -/
theorem c5_witness :
    (((generate_table [] [(1, [100]), (2, [300])]
        [(1, [30]), (2, [45])]).dropLast).map (·.time_pct)).sum = 100 ∧
    (((generate_table [] [(1, [100]), (2, [300])]
        [(1, [30]), (2, [45])]).dropLast).map (·.mem_pct)).sum = 100 := by
  have h := c5_percentage_columns_sum_to_100 [] [(1, [100]), (2, [300])]
    [(1, [30]), (2, [45])] (by decide)
  refine ⟨h.1 ?_, h.2.2.1 ?_⟩
  · rw [calculate_stats_time]
    norm_num [stats_entries, problem_stats, listMean, dictGet]
  · rw [calculate_stats_memory]
    norm_num [stats_entries, problem_stats, listMean, dictGet]

/-! ## Claim C9 -/

/-- Claim C9: aggregation is deterministic — two runs over the same
ProblemRecords (the same key-to-samples mappings, whatever the insertion
order of the times dict) produce identical SummaryTables — and the
table's rows are the problems in strictly ascending order followed by
the totals row last. -/
theorem c9_aggregation_deterministic_and_sorted
    (fi : Dict (String × Nat × ℚ)) (tt₁ tt₂ pm₁ pm₂ : Dict (List ℚ))
    (hnd : (dictKeys tt₁).Nodup) (hp : List.Perm tt₁ tt₂)
    (hpm : ∀ p, dictGet pm₁ p = dictGet pm₂ p) :
    generate_table fi tt₁ pm₁ = generate_table fi tt₂ pm₂ ∧
    ((generate_table fi tt₁ pm₁).map (fun r => r.label))
      = (((dictKeys tt₁).insertionSort (· ≤ ·)).map some) ++ [none] ∧
    List.Sorted (· < ·) ((dictKeys tt₁).insertionSort (· ≤ ·)) := by
  have hnd₂ : (dictKeys tt₂).Nodup := (dictKeys_perm hp).nodup_iff.mp hnd
  have hsorted_eq : (dictKeys tt₁).insertionSort (· ≤ ·)
      = (dictKeys tt₂).insertionSort (· ≤ ·) :=
    List.eq_of_perm_of_sorted
      ((List.perm_insertionSort _ _).trans
        ((dictKeys_perm hp).trans (List.perm_insertionSort _ _).symm))
      (List.sorted_insertionSort _ _) (List.sorted_insertionSort _ _)
  have hentries_pm : stats_entries tt₁ pm₁ = stats_entries tt₁ pm₂ := by
    unfold stats_entries
    apply List.map_congr_left
    intro e _
    rw [hpm e.1]
  have hentries_perm : List.Perm (stats_entries tt₁ pm₂)
      (stats_entries tt₂ pm₂) :=
    hp.map _
  have hnd_e : (dictKeys (stats_entries tt₁ pm₂)).Nodup := by
    rw [dictKeys_stats_entries]
    exact hnd
  have hlookup : ∀ p, dictGet (stats_entries tt₁ pm₁) p
      = dictGet (stats_entries tt₂ pm₂) p := by
    intro p
    rw [hentries_pm]
    exact dictGet_congr_perm hentries_perm hnd_e p
  have hT : (calculate_stats tt₁ pm₁).2.time
      = (calculate_stats tt₂ pm₂).2.time := by
    rw [calculate_stats_time, calculate_stats_time, hentries_pm]
    exact (hentries_perm.map _).sum_eq
  have hM : (calculate_stats tt₁ pm₁).2.memory
      = (calculate_stats tt₂ pm₂).2.memory := by
    rw [calculate_stats_memory, calculate_stats_memory, hentries_pm]
    exact (hentries_perm.map _).sum_eq
  have hTs : (calculate_stats tt₁ pm₁).2.time_std
      = (calculate_stats tt₂ pm₂).2.time_std := by
    rw [calculate_stats_time_std, calculate_stats_time_std, hentries_pm]
    exact (hentries_perm.map _).sum_eq
  have hMs : (calculate_stats tt₁ pm₁).2.memory_std
      = (calculate_stats tt₂ pm₂).2.memory_std := by
    rw [calculate_stats_memory_std, calculate_stats_memory_std, hentries_pm]
    exact (hentries_perm.map _).sum_eq
  refine ⟨?_, ?_, ?_⟩
  · rw [generate_table_def, generate_table_def, hsorted_eq, hT, hM, hTs, hMs,
      calculate_stats_fst, calculate_stats_fst]
    congr 1
    apply List.map_congr_left
    intro p _
    rw [hlookup p]
  · rw [generate_table_def, List.map_append, List.map_map]
    simp [Function.comp_def]
  · exact (List.sorted_insertionSort _ _).lt_of_le
      ((List.perm_insertionSort _ _).nodup_iff.mpr hnd)

/-- Claim C9, witness: two insertion orders of the same two recorded
problems yield the same table, with labels `[some 1, some 2, none]`. -/
theorem c9_witness :
    generate_table [] [(2, [10]), (1, [20])] [(1, [5]), (2, [7])]
      = generate_table [] [(1, [20]), (2, [10])] [(1, [5]), (2, [7])] ∧
    (generate_table [] [(2, [10]), (1, [20])]
        [(1, [5]), (2, [7])]).map (fun r => r.label)
      = ((([2, 1] : List Nat).insertionSort (· ≤ ·)).map some) ++ [none] := by
  have h := c9_aggregation_deterministic_and_sorted []
    [(2, [10]), (1, [20])] [(1, [20]), (2, [10])]
    [(1, [5]), (2, [7])] [(1, [5]), (2, [7])]
    (by decide) (by decide) (fun _ => rfl)
  exact ⟨h.1, h.2.1⟩

end ChallengeUtils
